import Mathlib

/-!
Verification development for the RFID library kiosk core
(local ledger, loan lifecycle, sync engine).

The definitions below are a shallow embedding of the TypeScript source:
  - `src/lib/db.ts`  : data model (`Tx`, `Student`, `Loan`), queries
    (`activeLoansForStudent`, `countActiveLoans`), and `addDays`;
  - `src/App.tsx`    : `submitBorrow`, `markReturned`, `loadLoansForReturn`,
    and `trySync`;
  - `src/lib/supabase.ts` : `upsertTransactions` (modelled as a boolean
    outcome of the remote upsert).

Modelling conventions:
  - ISO-8601 timestamps become abstract `Nat` ticks.  Each mutating
    operation reads the current tick (`new Date().toISOString()`) and the
    global clock advances by one afterwards, so distinct operations carry
    distinct timestamps, as millisecond ISO strings do in the source.
  - `crypto.randomUUID()` becomes a fresh-`Nat` counter (`nextId`); the
    source relies only on freshness of the generated ids.
  - `addDays` performs calendar day addition on an ISO string; at the
    abstraction level of the claims it is addition on the time axis.
  - Nullable fields (`string | null`) become `Option String`; an input
    field whose trimmed value is empty is modelled as `none`.
  - IndexedDB tables become Lean lists in insertion order; Dexie `put` /
    `bulkPut` replace records by primary key `id`.
-/

/-- Loan status, `'ACTIVE' | 'RETURNED'` in the source. -/
inductive LoanStatus
  | ACTIVE
  | RETURNED
deriving DecidableEq, Repr

/-- Transaction action, `'BORROW' | 'RETURN'` in the source. -/
inductive TxAction
  | BORROW
  | RETURN
deriving DecidableEq, Repr

/-- `Tx` record from `src/lib/db.ts`. -/
structure Tx where
  id : Nat
  user_uid : Option String
  student_index : Option String
  item_tag : String
  action : TxAction
  occurred_at : Nat
  device_id : String
  synced : Nat
deriving DecidableEq, Repr

/-- `Student` record from `src/lib/db.ts` (fields the core consults). -/
structure Student where
  index_number : String
  full_name : String
  card_uid : Option String
  phone : Option String
deriving DecidableEq, Repr

/-- `Loan` record from `src/lib/db.ts`. -/
structure Loan where
  id : Nat
  student_index : Option String
  user_uid : Option String
  item_tag : String
  item_title : Option String
  borrowed_at : Nat
  due_at : Nat
  returned_at : Option Nat
  status : LoanStatus
  device_id : String
  synced : Nat
deriving DecidableEq, Repr

/-- The local ledger (`library_web` IndexedDB database) together with the
clock and the fresh-id source of the modelling conventions. -/
structure DBState where
  students : List Student
  loans : List Loan
  txs : List Tx
  clock : Nat
  nextId : Nat
deriving DecidableEq, Repr

/-- A ledger with a given student table and no loans or transactions. -/
def initState (students : List Student) : DBState :=
  { students := students, loans := [], txs := [], clock := 0, nextId := 0 }

/-- `addDays` from `src/lib/db.ts`: advance a timestamp by a number of
days (calendar addition on ISO strings in the source, addition on the
abstract time axis here). -/
def addDays (dateIso : Nat) (days : Nat) : Nat :=
  dateIso + days

/-- `countActiveLoans` from `src/lib/db.ts`:
`db.loans.where(status ACTIVE).filter(student_index = index_number).count()`. -/
def countActiveLoans (index_number : String) (loans : List Loan) : Nat :=
  (loans.filter fun l =>
    decide (l.status = .ACTIVE ∧ l.student_index = some index_number)).length

/-- `activeLoansForStudent` from `src/lib/db.ts`: resolve the student
index (a supplied `index_number` wins; otherwise look the card uid up in
the student table), then return the ACTIVE loans with that index, or `[]`
when nothing resolves. -/
def activeLoansForStudent (index_number card_uid : Option String)
    (s : DBState) : List Loan :=
  let idx : Option String :=
    match index_number with
    | some i => some i
    | none =>
      match card_uid with
      | some uid =>
        match s.students.find? (fun st => decide (st.card_uid = some uid)) with
        | some stu => some stu.index_number
        | none => none
      | none => none
  match idx with
  | none => []
  | some i =>
    s.loans.filter fun l => decide (l.status = .ACTIVE ∧ l.student_index = some i)

/-- Student resolution step of `submitBorrow` in `src/App.tsx`: when an
index number is given, look up by `index_number` only; otherwise look up
by `card_uid`. -/
def resolveStudent (card_uid index_number : Option String)
    (s : DBState) : Option Student :=
  match index_number with
  | some idx => s.students.find? (fun st => decide (st.index_number = idx))
  | none =>
    match card_uid with
    | some uid => s.students.find? (fun st => decide (st.card_uid = some uid))
    | none => none

/-- The `days` computation of `submitBorrow`:
`Math.max(1, parseInt(value || '14', 10))` — an empty field defaults to
14, and only the lower bound 1 is enforced. -/
def borrowDays (daysInput : Option Int) : Int :=
  max 1 (daysInput.getD 14)

/-- Failure modes of `submitBorrow` (each is an `alert` + early return in
the source, leaving the ledger untouched). -/
inductive BorrowError
  | MissingItemTag
  | MissingIdentifier
  | StudentNotFound
  | LimitExceeded
deriving DecidableEq, Repr

/-- `submitBorrow` from `src/App.tsx`: validate inputs, resolve the
student, enforce the active-loan ceiling of 3, then atomically insert an
ACTIVE `Loan` and append a BORROW `Tx` with `synced = 0`. -/
def submitBorrow (card_uid index_number : Option String) (item_tag : String)
    (item_title : Option String) (daysInput : Option Int)
    (s : DBState) : Except BorrowError DBState :=
  if item_tag = "" then .error .MissingItemTag
  else if card_uid = none ∧ index_number = none then .error .MissingIdentifier
  else
    match resolveStudent card_uid index_number s with
    | none => .error .StudentNotFound
    | some stu =>
      let activeCnt := countActiveLoans stu.index_number s.loans
      if 3 ≤ activeCnt then .error .LimitExceeded
      else
        let days := borrowDays daysInput
        let now := s.clock
        let dueIso := addDays now days.toNat
        let loan : Loan :=
          { id := s.nextId
            student_index := some stu.index_number
            user_uid := card_uid
            item_tag := item_tag
            item_title := item_title
            borrowed_at := now
            due_at := dueIso
            returned_at := none
            status := .ACTIVE
            device_id := "web-kiosk"
            synced := 0 }
        let tx : Tx :=
          { id := s.nextId + 1
            user_uid := card_uid
            student_index := some stu.index_number
            item_tag := item_tag
            action := .BORROW
            occurred_at := now
            device_id := "web-kiosk"
            synced := 0 }
        .ok { s with
              loans := s.loans ++ [loan]
              txs := s.txs ++ [tx]
              clock := s.clock + 1
              nextId := s.nextId + 2 }

/-- `markReturned` from `src/App.tsx`: a loan that is not ACTIVE is left
alone (`if(loan.status !== ACTIVE) return`); otherwise the loan record is
replaced by a RETURNED copy with `returned_at = now` (`db.loans.put`) and
a RETURN `Tx` with `synced = 0` is appended. -/
def markReturned (loan : Loan) (s : DBState) : DBState :=
  if loan.status ≠ .ACTIVE then s
  else
    let now := s.clock
    let updated : Loan := { loan with status := .RETURNED, returned_at := some now }
    let tx : Tx :=
      { id := s.nextId
        user_uid := loan.user_uid
        student_index := loan.student_index
        item_tag := loan.item_tag
        action := .RETURN
        occurred_at := now
        device_id := "web-kiosk"
        synced := 0 }
    { s with
      loans := s.loans.map (fun x => if x.id = updated.id then updated else x)
      txs := s.txs ++ [tx]
      clock := s.clock + 1
      nextId := s.nextId + 1 }

/-- The `Return(loan_id)` operation: fetch the loan by id from the ledger
(the UI hands `markReturned` the stored record) and run `markReturned`;
an absent id is a no-op. -/
def returnLoanById (loanId : Nat) (s : DBState) : DBState :=
  match s.loans.find? (fun l => decide (l.id = loanId)) with
  | none => s
  | some l => markReturned l s

/-- The unsynced batch read by `trySync`:
`db.transactions.where(synced).notEqual(1).toArray()`. -/
def unsyncedTxs (txs : List Tx) : List Tx :=
  txs.filter fun t => decide (t.synced ≠ 1)

/-- Dexie `bulkPut` of the batch `uns` with `synced` set to 1: every
stored record whose primary key appears in `uns` is replaced by the
corresponding batch record marked `synced = 1`. -/
def bulkPutSynced (txs uns : List Tx) : List Tx :=
  txs.map fun t =>
    match uns.find? (fun u => decide (u.id = t.id)) with
    | some u => { u with synced := 1 }
    | none => t

/-- Outcome of one `trySync` cycle; every branch `append`s a log line in
the source and none throws to the caller. -/
inductive SyncOutcome
  | notConfigured
  | nothingToSync
  | offline
  | syncedBatch (n : Nat)
  | failed
deriving DecidableEq, Repr

/-- `trySync` from `src/App.tsx`: skip when Supabase is not configured;
read the unsynced batch (no-op when empty); probe reachability (no-op
when offline); submit the batch via `upsertTransactions` and, only on
confirmed success, mark the batch `synced = 1` in one `bulkPut`.  The
environment outcomes (configuration, probe, upsert) are the three boolean
parameters. -/
def trySync (configured reachable upsertOk : Bool)
    (s : DBState) : DBState × SyncOutcome :=
  if ¬configured then (s, .notConfigured)
  else
    let uns := unsyncedTxs s.txs
    if uns.isEmpty then (s, .nothingToSync)
    else if ¬reachable then (s, .offline)
    else if upsertOk then
      ({ s with txs := bulkPutSynced s.txs uns }, .syncedBatch uns.length)
    else (s, .failed)

/-- `loadLoansForReturn` from `src/App.tsx`:
`activeLoansForStudent` followed by the stable JavaScript
`sort((a,b) => a.due_at.localeCompare(b.due_at))`. -/
def loadLoansForReturn (index_number card_uid : Option String)
    (s : DBState) : List Loan :=
  (activeLoansForStudent index_number card_uid s).mergeSort
    (fun a b => decide (a.due_at ≤ b.due_at))

/-- The foreground operations driving the ledger. -/
inductive Op
  | borrow (card_uid index_number : Option String) (item_tag : String)
      (item_title : Option String) (daysInput : Option Int)
  | ret (loanId : Nat)
  | sync (configured reachable upsertOk : Bool)

/-- Apply one operation; a failed borrow leaves the ledger untouched
(the source alerts and returns before any write). -/
def applyOp (s : DBState) : Op → DBState
  | .borrow cu idx tag title d =>
    match submitBorrow cu idx tag title d s with
    | .ok s' => s'
    | .error _ => s
  | .ret lid => returnLoanById lid s
  | .sync c r u => (trySync c r u s).1

/-- Run a sequence of operations from a starting ledger. -/
def runOps (s : DBState) (ops : List Op) : DBState :=
  ops.foldl applyOp s

/-! ### Characterization lemmas for the operations -/

theorem resolveStudent_none_none (s : DBState) :
    resolveStudent none none s = none := rfl

theorem submitBorrow_ok_shape {cu idx : Option String} {tag : String}
    {title : Option String} {d : Option Int} {s s' : DBState}
    (h : submitBorrow cu idx tag title d s = .ok s') :
    ∃ stu, resolveStudent cu idx s = some stu ∧
      countActiveLoans stu.index_number s.loans < 3 ∧
      s' = { s with
             loans := s.loans ++
               [{ id := s.nextId
                  student_index := some stu.index_number
                  user_uid := cu
                  item_tag := tag
                  item_title := title
                  borrowed_at := s.clock
                  due_at := addDays s.clock (borrowDays d).toNat
                  returned_at := none
                  status := .ACTIVE
                  device_id := "web-kiosk"
                  synced := 0 }]
             txs := s.txs ++
               [{ id := s.nextId + 1
                  user_uid := cu
                  student_index := some stu.index_number
                  item_tag := tag
                  action := .BORROW
                  occurred_at := s.clock
                  device_id := "web-kiosk"
                  synced := 0 }]
             clock := s.clock + 1
             nextId := s.nextId + 2 } := by
  unfold submitBorrow at h
  split at h
  · exact absurd h (by simp)
  · split at h
    · exact absurd h (by simp)
    · split at h
      · exact absurd h (by simp)
      · rename_i stu hstu
        dsimp only at h
        split at h
        · exact absurd h (by simp)
        · rename_i hcnt
          refine ⟨stu, hstu, by omega, ?_⟩
          simpa using h.symm

theorem submitBorrow_limitExceeded {cu idx : Option String} {tag : String}
    (title : Option String) (d : Option Int) {s : DBState} {stu : Student}
    (htag : tag ≠ "")
    (hstu : resolveStudent cu idx s = some stu)
    (hcnt : 3 ≤ countActiveLoans stu.index_number s.loans) :
    submitBorrow cu idx tag title d s = .error .LimitExceeded := by
  have hid : ¬(cu = none ∧ idx = none) := by
    rintro ⟨rfl, rfl⟩
    rw [resolveStudent_none_none] at hstu
    exact Option.noConfusion hstu
  unfold submitBorrow
  rw [if_neg htag, if_neg hid, hstu]
  simp only [if_pos hcnt]

theorem markReturned_not_active {loan : Loan} {s : DBState}
    (h : loan.status ≠ .ACTIVE) : markReturned loan s = s := by
  unfold markReturned
  rw [if_pos h]

theorem markReturned_active {loan : Loan} {s : DBState}
    (h : loan.status = .ACTIVE) :
    markReturned loan s =
      { s with
        loans := s.loans.map (fun x =>
          if x.id = loan.id then
            { loan with status := .RETURNED, returned_at := some s.clock }
          else x),
        txs := s.txs ++
          [{ id := s.nextId, user_uid := loan.user_uid,
             student_index := loan.student_index, item_tag := loan.item_tag,
             action := .RETURN, occurred_at := s.clock,
             device_id := "web-kiosk", synced := 0 }],
        clock := s.clock + 1,
        nextId := s.nextId + 1 } := by
  unfold markReturned
  rw [if_neg (by simp [h])]

theorem find?_id_filter_of_nodup {txs : List Tx} {p : Tx → Bool} {t : Tx}
    (h : (txs.map Tx.id).Nodup) (ht : t ∈ txs) :
    (txs.filter p).find? (fun u => decide (u.id = t.id)) =
      if p t then some t else none := by
  have hinj := List.inj_on_of_nodup_map h
  by_cases hp : p t
  · rw [if_pos hp]
    cases hfind : (txs.filter p).find? (fun u => decide (u.id = t.id)) with
    | none =>
      rw [List.find?_eq_none] at hfind
      exact absurd (by simp) (hfind t (List.mem_filter.mpr ⟨ht, hp⟩))
    | some u =>
      have hu : u ∈ txs.filter p := List.mem_of_find?_eq_some hfind
      have hid : u.id = t.id := by simpa using List.find?_some hfind
      have : u = t := hinj (List.mem_filter.mp hu).1 ht hid
      rw [this]
  · rw [if_neg hp]
    rw [List.find?_eq_none]
    intro u hu hud
    have hid : u.id = t.id := by simpa using hud
    have : u = t := hinj (List.mem_filter.mp hu).1 ht hid
    exact hp (by rw [← this]; exact (List.mem_filter.mp hu).2)

theorem bulkPutSynced_filter {txs : List Tx} {p : Tx → Bool}
    (h : (txs.map Tx.id).Nodup) :
    bulkPutSynced txs (txs.filter p) =
      txs.map (fun t => if p t then { t with synced := 1 } else t) := by
  unfold bulkPutSynced
  apply List.map_congr_left
  intro t ht
  rw [find?_id_filter_of_nodup h ht]
  by_cases hp : p t
  · rw [if_pos hp, if_pos hp]
  · rw [if_neg hp, if_neg hp]

theorem trySync_fst_eq (c r u : Bool) (s : DBState) :
    (trySync c r u s).1 = { s with txs := ((trySync c r u s).1).txs } := by
  unfold trySync
  dsimp only
  split_ifs <;> rfl

theorem trySync_not_reachable (c u : Bool) (s : DBState) :
    (trySync c false u s).1 = s := by
  unfold trySync
  dsimp only
  split_ifs <;> simp_all

theorem trySync_upsert_failed (c r : Bool) (s : DBState) :
    (trySync c r false s).1 = s := by
  unfold trySync
  dsimp only
  split_ifs <;> simp_all

theorem trySync_success_txs (s : DBState) (h : (s.txs.map Tx.id).Nodup) :
    ((trySync true true true s).1).txs =
      s.txs.map (fun t => if t.synced ≠ 1 then { t with synced := 1 } else t) := by
  unfold trySync
  dsimp only
  rw [if_neg (by simp)]
  by_cases hemp : (unsyncedTxs s.txs).isEmpty
  · rw [if_pos hemp]
    have hall : ∀ t ∈ s.txs, t.synced = 1 := by
      intro t ht
      by_contra hne
      have hmem : t ∈ unsyncedTxs s.txs := List.mem_filter.mpr ⟨ht, by simpa using hne⟩
      rw [List.isEmpty_iff] at hemp
      rw [hemp] at hmem
      exact absurd hmem (List.not_mem_nil t)
    dsimp only
    rw [List.map_congr_left (g := id) ?_, List.map_id]
    intro t ht
    simp [hall t ht]
  · rw [if_neg hemp, if_neg (by simp), if_pos rfl]
    dsimp only
    rw [show unsyncedTxs s.txs = s.txs.filter (fun t => decide (t.synced ≠ 1)) from rfl]
    rw [bulkPutSynced_filter h]
    simp

/-! ### Fixtures for concrete witnesses and counterexamples -/

/-- Demo student used by the concrete witnesses. -/
def alice : Student :=
  { index_number := "S1", full_name := "Alice",
    card_uid := some "CARD-A", phone := none }

/-- Ledger fixture: Alice registered, no loans yet. -/
def demoInit : DBState := initState [alice]

/-- An ACTIVE demo loan for Alice, parameterised by id. -/
def demoLoan (i : Nat) : Loan :=
  { id := i, student_index := some "S1", user_uid := some "CARD-A",
    item_tag := "BOOK", item_title := none, borrowed_at := i,
    due_at := i + 14, returned_at := none, status := .ACTIVE,
    device_id := "web-kiosk", synced := 0 }

/-- Ledger fixture: Alice already holds three ACTIVE loans. -/
def demoFull : DBState :=
  { students := [alice], loans := [demoLoan 0, demoLoan 1, demoLoan 2],
    txs := [], clock := 10, nextId := 6 }

/-- Ledger fixture: the state right after Alice borrowed one book. -/
def demoBorrowed : DBState :=
  match submitBorrow (some "CARD-A") none "BOOK-1" none none demoInit with
  | .ok s => s
  | .error _ => demoInit

/-! ### Claims -/

/-- A loan fixture already returned, and a ledger holding only it. -/
def demoReturnedLoan : Loan :=
  { demoLoan 0 with status := .RETURNED, returned_at := some 5 }

/-- Ledger fixture whose only loan is already RETURNED. -/
def demoReturnedState : DBState :=
  { demoFull with loans := [demoReturnedLoan] }

/-- C4: calling Return on a loan whose status is not ACTIVE is a no-op —
it does not fail hard (the operation is total), mutates no loan and
appends no transaction — and a second Return on the same loan id changes
nothing, in particular the total transaction count. -/
theorem returnNotActive_noop :
    (∀ (s : DBState) (lid : Nat) (l : Loan),
       s.loans.find? (fun x => decide (x.id = lid)) = some l →
       l.status ≠ .ACTIVE →
       returnLoanById lid s = s) ∧
    (∀ (s : DBState) (lid : Nat),
       returnLoanById lid (returnLoanById lid s) = returnLoanById lid s) ∧
    (∀ (s : DBState) (lid : Nat),
       ((returnLoanById lid (returnLoanById lid s)).txs).length =
         ((returnLoanById lid s).txs).length) := by
  have hnoop : ∀ (s : DBState) (lid : Nat) (l : Loan),
      s.loans.find? (fun x => decide (x.id = lid)) = some l →
      l.status ≠ .ACTIVE → returnLoanById lid s = s := by
    intro s lid l hfind hst
    unfold returnLoanById
    rw [hfind]
    exact markReturned_not_active hst
  have hidem : ∀ (s : DBState) (lid : Nat),
      returnLoanById lid (returnLoanById lid s) = returnLoanById lid s := by
    intro s lid
    cases hfind : s.loans.find? (fun x => decide (x.id = lid)) with
    | none =>
      have h1 : returnLoanById lid s = s := by
        unfold returnLoanById
        rw [hfind]
      rw [h1, h1]
    | some l =>
      by_cases hst : l.status = .ACTIVE
      · have hid : l.id = lid := by
          simpa using List.find?_some hfind
        have h1 : returnLoanById lid s = markReturned l s := by
          unfold returnLoanById
          rw [hfind]
        set upd : Loan := { l with status := .RETURNED, returned_at := some s.clock }
          with hupd
        have hloans : (markReturned l s).loans =
            s.loans.map (fun x => if x.id = l.id then upd else x) := by
          rw [markReturned_active hst]
        have hfind2 : (markReturned l s).loans.find?
            (fun x => decide (x.id = lid)) = some upd := by
          rw [hloans, List.find?_map]
          have hcomp : ((fun x : Loan => decide (x.id = lid)) ∘
              (fun x => if x.id = l.id then upd else x)) =
              fun x : Loan => decide (x.id = lid) := by
            funext x
            by_cases hx : x.id = l.id
            · simp [Function.comp, hx, hid, hupd]
            · simp [Function.comp, hx]
          rw [hcomp, hfind]
          simp
        rw [h1]
        unfold returnLoanById
        rw [hfind2]
        exact markReturned_not_active (by simp [hupd])
      · have h1 : returnLoanById lid s = s := by
          unfold returnLoanById
          rw [hfind]
          exact markReturned_not_active hst
        rw [h1, h1]
  exact ⟨hnoop, hidem, fun s lid => by rw [hidem s lid]⟩

/-- C4 witness: on a ledger where the only loan is already RETURNED,
Return is a no-op, and a second Return right after a first one leaves the
transaction count unchanged. -/
theorem returnNotActive_noop_witness :
    returnLoanById 0 demoReturnedState = demoReturnedState ∧
    ((returnLoanById 0 (returnLoanById 0 demoFull)).txs).length =
      ((returnLoanById 0 demoFull).txs).length := by
  constructor
  · exact returnNotActive_noop.1 demoReturnedState 0 demoReturnedLoan
      (by decide) (by decide)
  · exact returnNotActive_noop.2.2 demoFull 0

theorem activeLoansForStudent_some_index (ix : String) (cu : Option String)
    (s : DBState) :
    activeLoansForStudent (some ix) cu s =
      s.loans.filter
        (fun l => decide (l.status = .ACTIVE ∧ l.student_index = some ix)) := rfl

theorem find?_markReturned_active {s : DBState} {l : Loan} {lid : Nat}
    (hfind : s.loans.find? (fun x => decide (x.id = lid)) = some l)
    (hst : l.status = .ACTIVE) :
    (markReturned l s).loans.find? (fun x => decide (x.id = lid)) =
      some { l with status := .RETURNED, returned_at := some s.clock } := by
  have hid : l.id = lid := by simpa using List.find?_some hfind
  have hloans : (markReturned l s).loans =
      s.loans.map (fun x => if x.id = l.id then
        { l with status := .RETURNED, returned_at := some s.clock } else x) := by
    rw [markReturned_active hst]
  rw [hloans, List.find?_map]
  have hcomp : ((fun x : Loan => decide (x.id = lid)) ∘
      (fun x => if x.id = l.id then
        { l with status := .RETURNED, returned_at := some s.clock } else x)) =
      fun x : Loan => decide (x.id = lid) := by
    funext x
    by_cases hx : x.id = l.id
    · simp [Function.comp, hx, hid]
    · simp [Function.comp, hx]
  rw [hcomp, hfind]
  simp

/-- C5: returning an ACTIVE loan removes it from the active-loans query
for its student (whatever card uid accompanies the query), and the stored
record now has status RETURNED and a non-null returned_at while its other
fields (id, student_index, item_tag, borrowed_at, due_at, ...) are
unchanged. -/
theorem return_activeLoans_roundTrip :
    ∀ (s : DBState) (l : Loan) (ix : String) (cu : Option String),
      s.loans.find? (fun x => decide (x.id = l.id)) = some l →
      l.status = .ACTIVE →
      l.student_index = some ix →
      (∀ m ∈ activeLoansForStudent (some ix) cu (returnLoanById l.id s),
         m.id ≠ l.id) ∧
      (returnLoanById l.id s).loans.find? (fun x => decide (x.id = l.id)) =
        some { l with status := .RETURNED, returned_at := some s.clock } := by
  intro s l ix cu hfind hst hix
  have h1 : returnLoanById l.id s = markReturned l s := by
    unfold returnLoanById
    rw [hfind]
  constructor
  · intro m hm hmid
    rw [h1, activeLoansForStudent_some_index] at hm
    have hm' := List.mem_filter.mp hm
    have hloans : (markReturned l s).loans =
        s.loans.map (fun x => if x.id = l.id then
          { l with status := .RETURNED, returned_at := some s.clock } else x) := by
      rw [markReturned_active hst]
    rw [hloans] at hm'
    rcases List.mem_map.mp hm'.1 with ⟨x, _, hfx⟩
    by_cases hxid : x.id = l.id
    · rw [if_pos hxid] at hfx
      have : m.status = .RETURNED := by rw [← hfx]
      have hact : m.status = .ACTIVE := by
        have := hm'.2
        simp only [decide_eq_true_eq] at this
        exact this.1
      rw [hact] at this
      exact LoanStatus.noConfusion this
    · rw [if_neg hxid] at hfx
      rw [hfx] at hxid
      exact hxid hmid
  · rw [h1]
    exact find?_markReturned_active hfind hst

/-- C5 witness: returning demo loan 1 in the three-loan ledger removes it
from the active list for S1 and stores it as RETURNED with
returned_at = some 10. -/
theorem return_activeLoans_roundTrip_witness :
    (∀ m ∈ activeLoansForStudent (some "S1") none
        (returnLoanById (demoLoan 1).id demoFull),
       m.id ≠ (demoLoan 1).id) ∧
    (returnLoanById (demoLoan 1).id demoFull).loans.find?
        (fun x => decide (x.id = (demoLoan 1).id)) =
      some { demoLoan 1 with status := .RETURNED, returned_at := some demoFull.clock } :=
  return_activeLoans_roundTrip demoFull (demoLoan 1) "S1" none
    (by decide) (by decide) (by decide)

/-- Duration clamp as the claim words it (for comparison only): clamped
to the closed interval [1, 365]. -/
def claimClampDays (daysInput : Option Int) : Int :=
  min 365 (max 1 (daysInput.getD 14))

/-- C6 counterexample: a Borrow requesting 400 days stores
due_at = now + 400; the claimed [1, 365] clamp would store now + 365. -/
theorem borrow_dueDate_counterexample :
    (submitBorrow none (some "S1") "BOOK-1" none (some 400) demoInit).map
        (fun s' => s'.loans.map Loan.due_at) = .ok [400] ∧
    addDays demoInit.clock (claimClampDays (some 400)).toNat = 365 ∧
    (400 : Nat) ≠ 365 := by
  refine ⟨rfl, by decide, by decide⟩

/-- C6 amended: every successful Borrow stores
due_at = now + (requested duration, default 14, clamped from below to 1);
no upper clamp at 365 is applied. -/
theorem borrow_dueDate_lowerClampOnly :
    ∀ (cu idx : Option String) (tag : String) (title : Option String)
      (d : Option Int) (s s' : DBState),
      submitBorrow cu idx tag title d s = .ok s' →
      ∃ l, s'.loans = s.loans ++ [l] ∧
        l.due_at = addDays s.clock (borrowDays d).toNat ∧
        borrowDays d = max 1 (d.getD 14) := by
  intro cu idx tag title d s s' h
  obtain ⟨stu, _, _, rfl⟩ := submitBorrow_ok_shape h
  exact ⟨_, rfl, rfl, rfl⟩

/-- C6 amended witness: the default borrow on the demo ledger stores
due_at = 0 + 14. -/
theorem borrow_dueDate_lowerClampOnly_witness :
    ∃ l, demoBorrowed.loans = demoInit.loans ++ [l] ∧
      l.due_at = addDays demoInit.clock (borrowDays none).toNat ∧
      borrowDays none = max 1 ((none : Option Int).getD 14) :=
  borrow_dueDate_lowerClampOnly (some "CARD-A") none "BOOK-1" none none
    demoInit demoBorrowed rfl

/-- C10: a supplied student index takes precedence in resolution — with
an index the lookup is by index_number only and the card uid is never
consulted (a failed index lookup makes Borrow fail with StudentNotFound
even when the card uid would match someone, and the active-loans query
with an index ignores the card uid entirely); the card uid is used only
when no index is given; and the active-loans query returns [] , not an
error, when nothing resolves. -/
theorem resolution_indexPrecedence :
    (∀ (cu : Option String) (ix : String) (s : DBState),
       resolveStudent cu (some ix) s =
         s.students.find? (fun st => decide (st.index_number = ix))) ∧
    (∀ (cu : Option String) (ix : String) (tag : String)
       (title : Option String) (d : Option Int) (s : DBState),
       tag ≠ "" →
       s.students.find? (fun st => decide (st.index_number = ix)) = none →
       submitBorrow cu (some ix) tag title d s = .error .StudentNotFound) ∧
    (∀ (ix : String) (cu : Option String) (s : DBState),
       activeLoansForStudent (some ix) cu s =
         activeLoansForStudent (some ix) none s) ∧
    (∀ (s : DBState), activeLoansForStudent none none s = []) ∧
    (∀ (uid : String) (s : DBState),
       s.students.find? (fun st => decide (st.card_uid = some uid)) = none →
       activeLoansForStudent none (some uid) s = []) := by
  refine ⟨fun cu ix s => rfl, ?_, fun ix cu s => rfl, fun s => rfl, ?_⟩
  · intro cu ix tag title d s htag hnone
    unfold submitBorrow
    rw [if_neg htag, if_neg (by simp)]
    have : resolveStudent cu (some ix) s = none := hnone
    rw [this]
  · intro uid s hnone
    unfold activeLoansForStudent
    dsimp only
    rw [hnone]

/-- C10 witness: with a registered card but a wrong index, Borrow fails
with StudentNotFound (the card is not consulted), and an unknown card
with no index yields the empty active-loans list. -/
theorem resolution_indexPrecedence_witness :
    submitBorrow (some "CARD-A") (some "S2") "BOOK-1" none none demoInit =
      .error .StudentNotFound ∧
    activeLoansForStudent none (some "NOPE") demoFull = [] := by
  constructor
  · exact resolution_indexPrecedence.2.1 (some "CARD-A") "S2" "BOOK-1"
      none none demoInit (by decide) (by decide)
  · exact resolution_indexPrecedence.2.2.2.2 "NOPE" demoFull (by decide)

/-- C2: a sync cycle marks `synced = 1` only after the upsert confirms
success — on a failed reachability probe the ledger is unchanged, on a
failed upsert the ledger is unchanged (in both cases `trySync` is total
and only logs, so no error reaches the foreground caller), and on
success every unsynced transaction is marked `synced = 1` in one local
update. -/
theorem syncMarks_onlyOnConfirmedSuccess :
    (∀ (c u : Bool) (s : DBState), (trySync c false u s).1 = s) ∧
    (∀ (c r : Bool) (s : DBState), (trySync c r false s).1 = s) ∧
    (∀ (s : DBState), (s.txs.map Tx.id).Nodup →
       ((trySync true true true s).1).txs =
         s.txs.map (fun t => if t.synced ≠ 1 then { t with synced := 1 } else t)) :=
  ⟨trySync_not_reachable, trySync_upsert_failed, trySync_success_txs⟩

/-- C2 witness: on the ledger with one unsynced borrow transaction, a
fully successful sync marks exactly that transaction. -/
theorem syncMarks_onlyOnConfirmedSuccess_witness :
    ((trySync true true true demoBorrowed).1).txs =
      demoBorrowed.txs.map
        (fun t => if t.synced ≠ 1 then { t with synced := 1 } else t) :=
  syncMarks_onlyOnConfirmedSuccess.2.2 demoBorrowed (by decide)

/-- C8: the loan list served for Return is exactly the ACTIVE loans of
the resolved student (a permutation of the raw query result, which
itself is the status filter of the loan table), sorted ascending by
due_at, with equal due dates kept in the stored order (stability); the
query is a pure function of the ledger and mutates nothing. -/
theorem activeLoans_sorted_stable :
    ∀ (idx cu : Option String) (s : DBState),
      (loadLoansForReturn idx cu s).Perm (activeLoansForStudent idx cu s) ∧
      (loadLoansForReturn idx cu s).Pairwise
        (fun a b => a.due_at ≤ b.due_at) ∧
      (∀ d : Nat,
        (loadLoansForReturn idx cu s).filter (fun l => decide (l.due_at = d)) =
          (activeLoansForStudent idx cu s).filter
            (fun l => decide (l.due_at = d))) := by
  intro idx cu s
  have htrans : ∀ a b c : Loan,
      decide (a.due_at ≤ b.due_at) → decide (b.due_at ≤ c.due_at) →
      decide (a.due_at ≤ c.due_at) := by
    intro a b c hab hbc
    simp only [decide_eq_true_eq] at *
    omega
  have htotal : ∀ a b : Loan,
      decide (a.due_at ≤ b.due_at) || decide (b.due_at ≤ a.due_at) := by
    intro a b
    simp only [Bool.or_eq_true, decide_eq_true_eq]
    omega
  refine ⟨List.mergeSort_perm _ _, ?_, ?_⟩
  · have h := List.sorted_mergeSort htrans htotal
      (activeLoansForStudent idx cu s)
    exact h.imp (fun hab => by simpa using hab)
  · intro d
    have hperm : ((loadLoansForReturn idx cu s).filter
          (fun l => decide (l.due_at = d))).Perm
        ((activeLoansForStudent idx cu s).filter
          (fun l => decide (l.due_at = d))) :=
      (List.mergeSort_perm _ _).filter _
    have hpw : ((activeLoansForStudent idx cu s).filter
        (fun l => decide (l.due_at = d))).Pairwise
        (fun a b : Loan => decide (a.due_at ≤ b.due_at) = true) := by
      apply List.pairwise_of_forall_mem_list
      intro a ha b hb
      have hda : a.due_at = d := by
        simpa using (List.mem_filter.mp ha).2
      have hdb : b.due_at = d := by
        simpa using (List.mem_filter.mp hb).2
      simp [hda, hdb]
    have hsub : List.Sublist
        ((activeLoansForStudent idx cu s).filter
          (fun l => decide (l.due_at = d)))
        (loadLoansForReturn idx cu s) :=
      List.sublist_mergeSort htrans htotal hpw (List.filter_sublist _)
    have hsub2 : List.Sublist
        ((activeLoansForStudent idx cu s).filter
          (fun l => decide (l.due_at = d)))
        ((loadLoansForReturn idx cu s).filter
          (fun l => decide (l.due_at = d))) := by
      have h2 := hsub.filter (fun l => decide (l.due_at = d))
      rwa [List.filter_eq_self.mpr
        (fun a ha => (List.mem_filter.mp ha).2)] at h2
    exact (hsub2.eq_of_length hperm.length_eq.symm).symm

theorem applyOp_borrow (cu idx : Option String) (tag : String)
    (title : Option String) (d : Option Int) (s : DBState) :
    applyOp s (.borrow cu idx tag title d) =
      match submitBorrow cu idx tag title d s with
      | .ok s' => s'
      | .error _ => s := rfl

theorem countActiveLoans_eq_countP (ix : String) (loans : List Loan) :
    countActiveLoans ix loans =
      loans.countP
        (fun l => decide (l.status = .ACTIVE ∧ l.student_index = some ix)) := by
  rw [countActiveLoans, List.countP_eq_length_filter]

theorem countActiveLoans_append (ix : String) (l1 l2 : List Loan) :
    countActiveLoans ix (l1 ++ l2) =
      countActiveLoans ix l1 + countActiveLoans ix l2 := by
  simp [countActiveLoans_eq_countP]

theorem countActiveLoans_markReturned_le (ix : String) (l : Loan)
    (s : DBState) :
    countActiveLoans ix (markReturned l s).loans ≤
      countActiveLoans ix s.loans := by
  by_cases hst : l.status = .ACTIVE
  · rw [markReturned_active hst]
    simp only [countActiveLoans_eq_countP, List.countP_map]
    apply List.countP_mono_left
    intro x _ hx
    by_cases hid : x.id = l.id
    · exfalso
      simp only [Function.comp, hid, if_pos] at hx
      exact absurd (of_decide_eq_true hx).1 (by simp)
    · simpa [Function.comp, hid] using hx
  · rw [markReturned_not_active hst]

theorem countActive_le_applyOp {s : DBState}
    (h : ∀ ix, countActiveLoans ix s.loans ≤ 3) (op : Op) :
    ∀ ix, countActiveLoans ix (applyOp s op).loans ≤ 3 := by
  cases op with
  | borrow cu idx tag title d =>
    intro ix
    cases hb : submitBorrow cu idx tag title d s with
    | error e =>
      simp only [applyOp_borrow, hb]
      exact h ix
    | ok s' =>
      simp only [applyOp_borrow, hb]
      obtain ⟨stu, hstu, hcnt, rfl⟩ := submitBorrow_ok_shape hb
      rw [countActiveLoans_append]
      by_cases hix : ix = stu.index_number
      · rw [hix]
        have h1 : countActiveLoans stu.index_number
            [{ id := s.nextId, student_index := some stu.index_number,
               user_uid := cu, item_tag := tag, item_title := title,
               borrowed_at := s.clock,
               due_at := addDays s.clock (borrowDays d).toNat,
               returned_at := none, status := .ACTIVE,
               device_id := "web-kiosk", synced := 0 }] = 1 := by
          simp [countActiveLoans]
        rw [h1]
        omega
      · have h0 : countActiveLoans ix
            [{ id := s.nextId, student_index := some stu.index_number,
               user_uid := cu, item_tag := tag, item_title := title,
               borrowed_at := s.clock,
               due_at := addDays s.clock (borrowDays d).toNat,
               returned_at := none, status := .ACTIVE,
               device_id := "web-kiosk", synced := 0 }] = 0 := by
          simp [countActiveLoans]
          exact fun hcontra => hix hcontra.symm
        rw [h0]
        have := h ix
        omega
  | ret lid =>
    intro ix
    show countActiveLoans ix (returnLoanById lid s).loans ≤ 3
    unfold returnLoanById
    cases hfind : s.loans.find? (fun l => decide (l.id = lid)) with
    | none => exact h ix
    | some l =>
      calc countActiveLoans ix (markReturned l s).loans
          ≤ countActiveLoans ix s.loans := countActiveLoans_markReturned_le ix l s
        _ ≤ 3 := h ix
  | sync c r u =>
    intro ix
    show countActiveLoans ix ((trySync c r u s).1).loans ≤ 3
    rw [trySync_fst_eq]
    exact h ix

theorem countActive_le_runOps {s : DBState}
    (h : ∀ ix, countActiveLoans ix s.loans ≤ 3) (ops : List Op) :
    ∀ ix, countActiveLoans ix (runOps s ops).loans ≤ 3 := by
  induction ops generalizing s with
  | nil => exact h
  | cons op ops ih => exact ih (countActive_le_applyOp h op)

/-- C1: a Borrow for a student who already holds 3 or more ACTIVE loans
fails with LimitExceeded and writes no loan and no transaction (the
ledger is unchanged); consequently, after any sequence of
Borrow/Return/sync operations from a fresh ledger, every student index
has at most 3 ACTIVE loans. -/
theorem borrowLimit_enforced :
    (∀ (cu idx : Option String) (tag : String) (title : Option String)
       (d : Option Int) (s : DBState) (stu : Student),
       tag ≠ "" →
       resolveStudent cu idx s = some stu →
       3 ≤ countActiveLoans stu.index_number s.loans →
       submitBorrow cu idx tag title d s = .error .LimitExceeded ∧
         applyOp s (.borrow cu idx tag title d) = s) ∧
    (∀ (students : List Student) (ops : List Op) (ix : String),
       countActiveLoans ix (runOps (initState students) ops).loans ≤ 3) := by
  constructor
  · intro cu idx tag title d s stu htag hstu hcnt
    have herr := submitBorrow_limitExceeded title d htag hstu hcnt
    exact ⟨herr, by simp only [applyOp_borrow, herr]⟩
  · intro students ops ix
    apply countActive_le_runOps
    intro ix2
    simp [initState, countActiveLoans]

/-- C1 witness: on the ledger where Alice already holds three ACTIVE
loans, a fourth Borrow fails with LimitExceeded and leaves the ledger
unchanged; and the invariant instance for the empty run. -/
theorem borrowLimit_enforced_witness :
    (submitBorrow (some "CARD-A") none "BOOK-4" none none demoFull =
       .error .LimitExceeded ∧
     applyOp demoFull (.borrow (some "CARD-A") none "BOOK-4" none none) =
       demoFull) ∧
    countActiveLoans "S1" (runOps (initState [alice]) []).loans ≤ 3 := by
  constructor
  · exact borrowLimit_enforced.1 (some "CARD-A") none "BOOK-4" none none
      demoFull alice (by decide) (by decide) (by decide)
  · exact borrowLimit_enforced.2 [alice] [] "S1"

theorem applyOp_ret (lid : Nat) (s : DBState) :
    applyOp s (.ret lid) = returnLoanById lid s := rfl

theorem applyOp_sync (c r u : Bool) (s : DBState) :
    applyOp s (.sync c r u) = (trySync c r u s).1 := rfl

theorem trySync_not_configured (r u : Bool) (s : DBState) :
    (trySync false r u s).1 = s := by
  unfold trySync
  dsimp only
  split_ifs <;> simp_all

/-- Equality of two transactions on every field except `synced`. -/
def sameExceptSynced (t u : Tx) : Prop :=
  u.id = t.id ∧ u.user_uid = t.user_uid ∧ u.student_index = t.student_index ∧
  u.item_tag = t.item_tag ∧ u.action = t.action ∧
  u.occurred_at = t.occurred_at ∧ u.device_id = t.device_id

theorem sameExceptSynced_refl (t : Tx) : sameExceptSynced t t :=
  ⟨rfl, rfl, rfl, rfl, rfl, rfl, rfl⟩

theorem applyOp_txs_shape (s : DBState) (op : Op)
    (hnd : (s.txs.map Tx.id).Nodup) :
    (applyOp s op).txs = s.txs ∨
    (∃ t, (applyOp s op).txs = s.txs ++ [t]) ∨
    (applyOp s op).txs =
      s.txs.map (fun t => if t.synced ≠ 1 then { t with synced := 1 } else t) := by
  cases op with
  | borrow cu idx tag title d =>
    cases hb : submitBorrow cu idx tag title d s with
    | error e =>
      left
      simp only [applyOp_borrow, hb]
    | ok s' =>
      obtain ⟨stu, h1, h2, rfl⟩ := submitBorrow_ok_shape hb
      right; left
      refine ⟨{ id := s.nextId + 1, user_uid := cu,
                student_index := some stu.index_number, item_tag := tag,
                action := .BORROW, occurred_at := s.clock,
                device_id := "web-kiosk", synced := 0 }, ?_⟩
      simp only [applyOp_borrow, hb]
  | ret lid =>
    rw [applyOp_ret]
    unfold returnLoanById
    cases hfind : s.loans.find? (fun l => decide (l.id = lid)) with
    | none => left; rfl
    | some l =>
      dsimp only
      by_cases hst : l.status = .ACTIVE
      · right; left
        rw [markReturned_active hst]
        exact ⟨_, rfl⟩
      · left
        rw [markReturned_not_active hst]
  | sync c r u =>
    rw [applyOp_sync]
    cases c with
    | false => left; rw [trySync_not_configured]
    | true =>
      cases r with
      | false => left; rw [trySync_not_reachable]
      | true =>
        cases u with
        | false => left; rw [trySync_upsert_failed]
        | true => right; right; exact trySync_success_txs s hnd

theorem tx_preserved_of_shape {txs txs' : List Tx}
    (hsh : txs' = txs ∨ (∃ t, txs' = txs ++ [t]) ∨
      txs' = txs.map
        (fun t => if t.synced ≠ 1 then { t with synced := 1 } else t)) :
    ∀ (i : Nat) (hi : i < txs.length),
      ∃ hj : i < txs'.length,
        sameExceptSynced (txs.get ⟨i, hi⟩) (txs'.get ⟨i, hj⟩) ∧
        ((txs'.get ⟨i, hj⟩).synced = (txs.get ⟨i, hi⟩).synced ∨
          ((txs.get ⟨i, hi⟩).synced ≠ 1 ∧ (txs'.get ⟨i, hj⟩).synced = 1)) := by
  intro i hi
  rcases hsh with rfl | ⟨t, rfl⟩ | rfl
  · exact ⟨hi, sameExceptSynced_refl _, Or.inl rfl⟩
  · have hj : i < (txs ++ [t]).length := by
      rw [List.length_append]
      omega
    have hget : (txs ++ [t]).get ⟨i, hj⟩ = txs.get ⟨i, hi⟩ := by
      simp only [List.get_eq_getElem]
      exact List.getElem_append_left hi
    exact ⟨hj, hget ▸ sameExceptSynced_refl _, Or.inl (by rw [hget])⟩
  · have hj : i <
        (txs.map (fun t => if t.synced ≠ 1 then
          { t with synced := 1 } else t)).length := by
      rw [List.length_map]
      exact hi
    have hget : (txs.map (fun t => if t.synced ≠ 1 then
        { t with synced := 1 } else t)).get ⟨i, hj⟩ =
        (fun t : Tx => if t.synced ≠ 1 then { t with synced := 1 } else t)
          (txs.get ⟨i, hi⟩) := by
      simp only [List.get_eq_getElem]
      exact List.getElem_map _
    refine ⟨hj, ?_, ?_⟩
    · rw [hget]
      dsimp only
      by_cases hs : (txs.get ⟨i, hi⟩).synced = 1
      · rw [if_neg (by simpa using hs)]
        exact sameExceptSynced_refl _
      · rw [if_pos (by simpa using hs)]
        exact ⟨rfl, rfl, rfl, rfl, rfl, rfl, rfl⟩
    · rw [hget]
      dsimp only
      by_cases hs : (txs.get ⟨i, hi⟩).synced = 1
      · rw [if_neg (by simpa using hs)]
        exact Or.inl rfl
      · rw [if_pos (by simpa using hs)]
        exact Or.inr ⟨hs, rfl⟩

/-- C3: transactions are append-only — every pre-existing transaction
survives every operation (Borrow, Return, sync) in place with all fields
other than `synced` unchanged, and `synced` either keeps its value or
moves from a non-1 value to 1; it is never reset from 1. -/
theorem tx_appendOnly_syncedMonotone :
    ∀ (s : DBState) (op : Op), (s.txs.map Tx.id).Nodup →
      ∀ (i : Nat) (hi : i < s.txs.length),
        ∃ hj : i < ((applyOp s op).txs).length,
          sameExceptSynced (s.txs.get ⟨i, hi⟩)
            (((applyOp s op).txs).get ⟨i, hj⟩) ∧
          ((((applyOp s op).txs).get ⟨i, hj⟩).synced =
              (s.txs.get ⟨i, hi⟩).synced ∨
            ((s.txs.get ⟨i, hi⟩).synced ≠ 1 ∧
              (((applyOp s op).txs).get ⟨i, hj⟩).synced = 1)) := by
  intro s op hnd i hi
  exact tx_preserved_of_shape (applyOp_txs_shape s op hnd) i hi

/-- C3 witness: the unsynced borrow transaction of the demo ledger keeps
all fields except `synced` across a fully successful sync, which flips
its `synced` from 0 to 1. -/
theorem tx_appendOnly_syncedMonotone_witness :
    ∃ hj : 0 < ((applyOp demoBorrowed (.sync true true true)).txs).length,
      sameExceptSynced (demoBorrowed.txs.get ⟨0, by decide⟩)
        (((applyOp demoBorrowed (.sync true true true)).txs).get ⟨0, hj⟩) ∧
      ((((applyOp demoBorrowed (.sync true true true)).txs).get ⟨0, hj⟩).synced =
          (demoBorrowed.txs.get ⟨0, by decide⟩).synced ∨
        ((demoBorrowed.txs.get ⟨0, by decide⟩).synced ≠ 1 ∧
          (((applyOp demoBorrowed (.sync true true true)).txs).get
            ⟨0, hj⟩).synced = 1)) :=
  tx_appendOnly_syncedMonotone demoBorrowed (.sync true true true)
    (by decide) 0 (by decide)

/-! ### Loan/transaction correspondence invariant -/

/-- A BORROW transaction matching a loan on
(student_index, item_tag, borrowed_at). -/
def matchesBorrowTx (l : Loan) (t : Tx) : Bool :=
  decide (t.action = .BORROW ∧ t.student_index = l.student_index ∧
    t.item_tag = l.item_tag ∧ t.occurred_at = l.borrowed_at)

/-- A RETURN transaction matching a loan on (student_index, item_tag)
and occurring at the given time. -/
def matchesReturnTx (l : Loan) (rt : Nat) (t : Tx) : Bool :=
  decide (t.action = .RETURN ∧ t.student_index = l.student_index ∧
    t.item_tag = l.item_tag ∧ t.occurred_at = rt)

/-- Ledger well-formedness: timestamps precede the clock, ACTIVE loans
have no returned_at, RETURNED loans have one, and the loan table is in
exact correspondence with the transaction log. -/
structure LedgerInv (s : DBState) : Prop where
  txTimes : ∀ t ∈ s.txs, t.occurred_at < s.clock
  loanTimes : ∀ l ∈ s.loans, l.borrowed_at < s.clock
  retTimes : ∀ l ∈ s.loans, ∀ rt, l.returned_at = some rt → rt < s.clock
  activeNone : ∀ l ∈ s.loans, l.status = .ACTIVE → l.returned_at = none
  retSome : ∀ l ∈ s.loans, l.status = .RETURNED → l.returned_at ≠ none
  borrowCount : ∀ l ∈ s.loans, s.txs.countP (matchesBorrowTx l) = 1
  activeNoRet : ∀ l ∈ s.loans, l.status = .ACTIVE →
    s.txs.countP (matchesReturnTx l l.borrowed_at) = 0
  retCount : ∀ l ∈ s.loans, ∀ rt, l.returned_at = some rt →
    s.txs.countP (matchesReturnTx l rt) = 1
  txIds : (s.txs.map Tx.id).Nodup
  txIdBound : ∀ t ∈ s.txs, t.id < s.nextId

theorem countP_zero_of_occursAt {txs : List Tx} {clock : Nat}
    (htimes : ∀ t ∈ txs, t.occurred_at < clock) (p : Tx → Bool)
    (hp : ∀ t, p t → t.occurred_at = clock) :
    txs.countP p = 0 := by
  rw [List.countP_eq_zero]
  intro t ht hpt
  have h1 := hp t hpt
  have h2 := htimes t ht
  omega

theorem ledgerInv_init (students : List Student) :
    LedgerInv (initState students) := by
  refine ⟨?_, ?_, ?_, ?_, ?_, ?_, ?_, ?_, ?_, ?_⟩ <;> simp [initState]

theorem countP_syncMark (txs : List Tx) (p : Tx → Bool)
    (hp : ∀ t, p { t with synced := 1 } = p t) :
    (txs.map
      (fun t => if t.synced ≠ 1 then { t with synced := 1 } else t)).countP p =
      txs.countP p := by
  rw [List.countP_map]
  apply List.countP_congr
  intro t _
  by_cases hs : t.synced ≠ 1
  · simp only [Function.comp, if_pos hs, hp t]
  · simp only [Function.comp, if_neg hs]

theorem ledgerInv_sync {s : DBState} (h : LedgerInv s) (c r u : Bool) :
    LedgerInv (applyOp s (.sync c r u)) := by
  rw [applyOp_sync]
  cases c with
  | false => rw [trySync_not_configured]; exact h
  | true =>
    cases r with
    | false => rw [trySync_not_reachable]; exact h
    | true =>
      cases u with
      | false => rw [trySync_upsert_failed]; exact h
      | true =>
        have h1 := trySync_fst_eq true true true s
        have h2 := trySync_success_txs s h.txIds
        rw [h2] at h1
        rw [h1]
        have hmem : ∀ t' ∈ s.txs.map
            (fun t => if t.synced ≠ 1 then { t with synced := 1 } else t),
            ∃ t ∈ s.txs, t'.id = t.id ∧ t'.occurred_at = t.occurred_at := by
          intro t' ht'
          rcases List.mem_map.mp ht' with ⟨t, ht, hft⟩
          refine ⟨t, ht, ?_⟩
          by_cases hs : t.synced ≠ 1
          · rw [if_pos hs] at hft
            rw [← hft]
            exact ⟨rfl, rfl⟩
          · rw [if_neg hs] at hft
            rw [← hft]
            exact ⟨rfl, rfl⟩
        have hids : (s.txs.map
            (fun t => if t.synced ≠ 1 then
              { t with synced := 1 } else t)).map Tx.id = s.txs.map Tx.id := by
          rw [List.map_map]
          apply List.map_congr_left
          intro t _
          by_cases hs : t.synced ≠ 1
          · simp only [Function.comp, if_pos hs]
          · simp only [Function.comp, if_neg hs]
        refine ⟨?_, ?_, ?_, ?_, ?_, ?_, ?_, ?_, ?_, ?_⟩
        · intro t' ht'
          rcases hmem t' ht' with ⟨t, ht, _, hocc⟩
          rw [hocc]
          exact h.txTimes t ht
        · exact h.loanTimes
        · exact h.retTimes
        · exact h.activeNone
        · exact h.retSome
        · intro l hl
          rw [countP_syncMark s.txs (matchesBorrowTx l) (fun t => rfl)]
          exact h.borrowCount l hl
        · intro l hl hact
          rw [countP_syncMark s.txs (matchesReturnTx l l.borrowed_at)
            (fun t => rfl)]
          exact h.activeNoRet l hl hact
        · intro l hl rt hrt
          rw [countP_syncMark s.txs (matchesReturnTx l rt) (fun t => rfl)]
          exact h.retCount l hl rt hrt
        · rw [hids]
          exact h.txIds
        · intro t' ht'
          rcases hmem t' ht' with ⟨t, ht, hid, _⟩
          rw [hid]
          exact h.txIdBound t ht

theorem ledgerInv_borrow {s : DBState} (h : LedgerInv s)
    (cu idx : Option String) (tag : String) (title : Option String)
    (d : Option Int) :
    LedgerInv (applyOp s (.borrow cu idx tag title d)) := by
  cases hb : submitBorrow cu idx tag title d s with
  | error e =>
    simp only [applyOp_borrow, hb]
    exact h
  | ok s' =>
    obtain ⟨stu, hstu, hcnt, rfl⟩ := submitBorrow_ok_shape hb
    simp only [applyOp_borrow, hb]
    refine ⟨?_, ?_, ?_, ?_, ?_, ?_, ?_, ?_, ?_, ?_⟩
    all_goals dsimp only
    · intro t ht
      rcases List.mem_append.mp ht with ht | ht
      · have := h.txTimes t ht
        omega
      · rw [List.mem_singleton] at ht
        subst ht
        show s.clock < s.clock + 1
        omega
    · intro l hl
      rcases List.mem_append.mp hl with hl | hl
      · have := h.loanTimes l hl
        omega
      · rw [List.mem_singleton] at hl
        subst hl
        show s.clock < s.clock + 1
        omega
    · intro l hl rt hrt
      rcases List.mem_append.mp hl with hl | hl
      · have := h.retTimes l hl rt hrt
        omega
      · rw [List.mem_singleton] at hl
        subst hl
        simp at hrt
    · intro l hl hact
      rcases List.mem_append.mp hl with hl | hl
      · exact h.activeNone l hl hact
      · rw [List.mem_singleton] at hl
        subst hl
        rfl
    · intro l hl hret
      rcases List.mem_append.mp hl with hl | hl
      · exact h.retSome l hl hret
      · rw [List.mem_singleton] at hl
        subst hl
        exact absurd hret (by simp)
    · intro l hl
      rw [List.countP_append, List.countP_singleton]
      rcases List.mem_append.mp hl with hl | hl
      · have hlt := h.loanTimes l hl
        rw [h.borrowCount l hl, if_neg ?_]
        · simp only [matchesBorrowTx, decide_eq_true_eq]
          rintro ⟨-, -, -, h4⟩
          have h5 : s.clock = l.borrowed_at := h4
          omega
      · rw [List.mem_singleton] at hl
        subst hl
        rw [countP_zero_of_occursAt h.txTimes _ ?hzero, if_pos ?hpos]
        case hzero =>
          simp only [matchesBorrowTx, decide_eq_true_eq]
          intro t hpt
          exact hpt.2.2.2
        case hpos => simp [matchesBorrowTx]
    · intro l hl hact
      rw [List.countP_append]
      rcases List.mem_append.mp hl with hl | hl
      · rw [h.activeNoRet l hl hact]
        simp [List.countP_singleton, matchesReturnTx]
      · rw [List.mem_singleton] at hl
        subst hl
        rw [countP_zero_of_occursAt h.txTimes _ ?_]
        · simp [List.countP_singleton, matchesReturnTx]
        · simp only [matchesReturnTx, decide_eq_true_eq]
          intro t hpt
          exact hpt.2.2.2
    · intro l hl rt hrt
      rw [List.countP_append]
      rcases List.mem_append.mp hl with hl | hl
      · rw [h.retCount l hl rt hrt]
        simp [List.countP_singleton, matchesReturnTx]
      · rw [List.mem_singleton] at hl
        subst hl
        simp at hrt
    · rw [List.map_append, List.nodup_append]
      refine ⟨h.txIds, by simp, ?_⟩
      intro a ha hb2
      rcases List.mem_map.mp ha with ⟨t, ht, hta⟩
      have := h.txIdBound t ht
      simp at hb2
      omega
    · intro t ht
      rcases List.mem_append.mp ht with ht | ht
      · have := h.txIdBound t ht
        omega
      · rw [List.mem_singleton] at ht
        subst ht
        show s.nextId + 1 < s.nextId + 2
        omega

theorem ledgerInv_ret {s : DBState} (h : LedgerInv s) (lid : Nat) :
    LedgerInv (applyOp s (.ret lid)) := by
  rw [applyOp_ret]
  unfold returnLoanById
  cases hfind : s.loans.find? (fun l => decide (l.id = lid)) with
  | none => exact h
  | some l =>
    dsimp only
    by_cases hst : l.status = .ACTIVE
    case neg =>
      rw [markReturned_not_active hst]
      exact h
    case pos =>
    rw [markReturned_active hst]
    have hlmem : l ∈ s.loans := List.mem_of_find?_eq_some hfind
    have hlbt : l.borrowed_at < s.clock := h.loanTimes l hlmem
    refine ⟨?_, ?_, ?_, ?_, ?_, ?_, ?_, ?_, ?_, ?_⟩
    all_goals dsimp only
    · intro t ht
      rcases List.mem_append.mp ht with ht | ht
      · have := h.txTimes t ht
        omega
      · rw [List.mem_singleton] at ht
        subst ht
        show s.clock < s.clock + 1
        omega
    · intro x hx
      rcases List.mem_map.mp hx with ⟨y, hy, hfy⟩
      by_cases hyid : y.id = l.id
      · rw [if_pos hyid] at hfy
        subst hfy
        show l.borrowed_at < s.clock + 1
        omega
      · rw [if_neg hyid] at hfy
        subst hfy
        have := h.loanTimes y hy
        omega
    · intro x hx rt hrt
      rcases List.mem_map.mp hx with ⟨y, hy, hfy⟩
      by_cases hyid : y.id = l.id
      · rw [if_pos hyid] at hfy
        subst hfy
        have hrt2 : s.clock = rt := by simpa using hrt
        omega
      · rw [if_neg hyid] at hfy
        subst hfy
        have := h.retTimes y hy rt hrt
        omega
    · intro x hx hact
      rcases List.mem_map.mp hx with ⟨y, hy, hfy⟩
      by_cases hyid : y.id = l.id
      · rw [if_pos hyid] at hfy
        subst hfy
        simp at hact
      · rw [if_neg hyid] at hfy
        subst hfy
        exact h.activeNone y hy hact
    · intro x hx hret
      rcases List.mem_map.mp hx with ⟨y, hy, hfy⟩
      by_cases hyid : y.id = l.id
      · rw [if_pos hyid] at hfy
        subst hfy
        simp
      · rw [if_neg hyid] at hfy
        subst hfy
        exact h.retSome y hy hret
    · intro x hx
      rcases List.mem_map.mp hx with ⟨y, hy, hfy⟩
      by_cases hyid : y.id = l.id
      · rw [if_pos hyid] at hfy
        subst hfy
        have hrw : matchesBorrowTx
            { l with status := .RETURNED, returned_at := some s.clock } =
            matchesBorrowTx l := rfl
        rw [List.countP_append, hrw, h.borrowCount l hlmem,
          List.countP_singleton, if_neg ?_]
        simp [matchesBorrowTx]
      · rw [if_neg hyid] at hfy
        subst hfy
        rw [List.countP_append, h.borrowCount y hy,
          List.countP_singleton, if_neg ?_]
        simp [matchesBorrowTx]
    · intro x hx hact
      rcases List.mem_map.mp hx with ⟨y, hy, hfy⟩
      by_cases hyid : y.id = l.id
      · rw [if_pos hyid] at hfy
        subst hfy
        simp at hact
      · rw [if_neg hyid] at hfy
        subst hfy
        rw [List.countP_append, h.activeNoRet y hy hact,
          List.countP_singleton, if_neg ?_]
        simp only [matchesReturnTx, decide_eq_true_eq]
        rintro ⟨-, -, -, h4⟩
        have h5 : s.clock = y.borrowed_at := h4
        have := h.loanTimes y hy
        omega
    · intro x hx rt hrt
      rcases List.mem_map.mp hx with ⟨y, hy, hfy⟩
      by_cases hyid : y.id = l.id
      · rw [if_pos hyid] at hfy
        subst hfy
        have hrt2 : s.clock = rt := by simpa using hrt
        subst hrt2
        rw [List.countP_append,
          countP_zero_of_occursAt h.txTimes _ ?hz,
          List.countP_singleton, if_pos ?hp]
        case hz =>
          simp only [matchesReturnTx, decide_eq_true_eq]
          intro t hpt
          exact hpt.2.2.2
        case hp => simp [matchesReturnTx]
      · rw [if_neg hyid] at hfy
        subst hfy
        rw [List.countP_append, h.retCount y hy rt hrt,
          List.countP_singleton, if_neg ?_]
        simp only [matchesReturnTx, decide_eq_true_eq]
        rintro ⟨-, -, -, h4⟩
        have h5 : s.clock = rt := h4
        have := h.retTimes y hy rt hrt
        omega
    · rw [List.map_append, List.nodup_append]
      refine ⟨h.txIds, by simp, ?_⟩
      intro a ha hb2
      rcases List.mem_map.mp ha with ⟨t, ht, hta⟩
      have := h.txIdBound t ht
      simp at hb2
      omega
    · intro t ht
      rcases List.mem_append.mp ht with ht | ht
      · have := h.txIdBound t ht
        omega
      · rw [List.mem_singleton] at ht
        subst ht
        show s.nextId < s.nextId + 1
        omega

theorem ledgerInv_applyOp {s : DBState} (h : LedgerInv s) (op : Op) :
    LedgerInv (applyOp s op) := by
  cases op with
  | borrow cu idx tag title d => exact ledgerInv_borrow h cu idx tag title d
  | ret lid => exact ledgerInv_ret h lid
  | sync c r u => exact ledgerInv_sync h c r u

theorem ledgerInv_runOps (students : List Student) (ops : List Op) :
    LedgerInv (runOps (initState students) ops) := by
  suffices hgen : ∀ (ops2 : List Op) (s : DBState), LedgerInv s →
      LedgerInv (runOps s ops2) by
    exact hgen ops _ (ledgerInv_init students)
  intro ops2
  induction ops2 with
  | nil => exact fun s hs => hs
  | cons op rest ih => exact fun s hs => ih _ (ledgerInv_applyOp hs op)

/-- Operation sequence fixture: Alice borrows BOOK-1 and then returns
loan 0. -/
def demoOps : List Op :=
  [.borrow (some "CARD-A") none "BOOK-1" none none, .ret 0]

/-- The stored loan record after `demoOps`. -/
def demoRetLoan : Loan :=
  { id := 0, student_index := some "S1", user_uid := some "CARD-A",
    item_tag := "BOOK-1", item_title := none, borrowed_at := 0,
    due_at := 14, returned_at := some 1, status := .RETURNED,
    device_id := "web-kiosk", synced := 0 }

/-- C9: after any sequence of Borrow/Return/sync operations from a
fresh ledger, every loan has exactly one BORROW transaction matching
its (student_index, item_tag, borrowed_at); an ACTIVE loan has no
matching RETURN transaction; a RETURNED loan has exactly one RETURN
transaction matching its (student_index, item_tag) at its returned_at
time. -/
theorem loanTransaction_correspondence :
    ∀ (students : List Student) (ops : List Op),
      ∀ l ∈ (runOps (initState students) ops).loans,
        ((runOps (initState students) ops).txs).countP
          (matchesBorrowTx l) = 1 ∧
        (l.status = .ACTIVE →
          ((runOps (initState students) ops).txs).countP
            (matchesReturnTx l l.borrowed_at) = 0) ∧
        (l.status = .RETURNED →
          ∃ rt, l.returned_at = some rt ∧
            ((runOps (initState students) ops).txs).countP
              (matchesReturnTx l rt) = 1) := by
  intro students ops l hl
  have h := ledgerInv_runOps students ops
  refine ⟨h.borrowCount l hl, h.activeNoRet l hl, ?_⟩
  intro hret
  have hsome := h.retSome l hl hret
  cases hrt : l.returned_at with
  | none => exact absurd hrt hsome
  | some rt => exact ⟨rt, rfl, h.retCount l hl rt hrt⟩

/-- C9 witness: in the borrow-then-return demo run, the stored RETURNED
loan has exactly one matching BORROW transaction and exactly one
matching RETURN transaction. -/
theorem loanTransaction_correspondence_witness :
    ((runOps (initState [alice]) demoOps).txs).countP
      (matchesBorrowTx demoRetLoan) = 1 ∧
    (demoRetLoan.status = .ACTIVE →
      ((runOps (initState [alice]) demoOps).txs).countP
        (matchesReturnTx demoRetLoan demoRetLoan.borrowed_at) = 0) ∧
    (demoRetLoan.status = .RETURNED →
      ∃ rt, demoRetLoan.returned_at = some rt ∧
        ((runOps (initState [alice]) demoOps).txs).countP
          (matchesReturnTx demoRetLoan rt) = 1) :=
  loanTransaction_correspondence [alice] demoOps demoRetLoan (by decide)

/-! ### Overlapping sync cycles

`trySync` in the source consults no in-flight flag: the 10-second timer
(`setInterval(() => trySync(true), 10000)`) and the manual Sync Now
button (`trySync(false)`) each run the whole cycle unconditionally.  The
machine below is `trySync` split at its `await` points (batch read,
reachability probe, upsert, local mark), with two executions that may
interleave; the environment is fixed to the fully successful case
(configured, reachable, upsert ok). -/

/-- One in-flight `trySync` execution, frozen at its await points. -/
inductive SyncTask
  | idle
  | readBatch (uns : List Tx)
  | probed (uns : List Tx)
  | submitted (uns : List Tx)
  | finished
deriving DecidableEq, Repr

/-- The state shared by overlapping sync cycles: the transaction table,
the log of batches submitted to the remote (as lists of transaction
ids), and the two executions (timer tick and manual trigger). -/
structure SyncWorld where
  txs : List Tx
  submissions : List (List Nat)
  taskA : SyncTask
  taskB : SyncTask
deriving DecidableEq, Repr

/-- Advance one `trySync` execution by one step.  The start step
re-reads the unsynced set and stops early when it is empty; no in-flight
flag is consulted because the source maintains none. -/
def syncTaskStep (task : SyncTask) (txs : List Tx)
    (submissions : List (List Nat)) :
    SyncTask × List Tx × List (List Nat) :=
  match task with
  | .idle =>
    let uns := unsyncedTxs txs
    if uns.isEmpty then (.finished, txs, submissions)
    else (.readBatch uns, txs, submissions)
  | .readBatch uns => (.probed uns, txs, submissions)
  | .probed uns => (.submitted uns, txs, submissions ++ [uns.map Tx.id])
  | .submitted uns => (.finished, bulkPutSynced txs uns, submissions)
  | .finished => (.finished, txs, submissions)

/-- Run one scheduler step: `true` advances the timer-tick execution,
`false` advances the manual-trigger execution. -/
def syncWorldStep (w : SyncWorld) (stepA : Bool) : SyncWorld :=
  if stepA then
    match syncTaskStep w.taskA w.txs w.submissions with
    | (t, txs2, subs) => { w with taskA := t, txs := txs2, submissions := subs }
  else
    match syncTaskStep w.taskB w.txs w.submissions with
    | (t, txs2, subs) => { w with taskB := t, txs := txs2, submissions := subs }

/-- Run a whole interleaving schedule. -/
def runSchedule (w : SyncWorld) (sched : List Bool) : SyncWorld :=
  sched.foldl syncWorldStep w

/-- An unsynced BORROW transaction for the interleaving fixtures. -/
def demoTx : Tx :=
  { id := 0, user_uid := none, student_index := some "S1",
    item_tag := "BOOK-1", action := .BORROW, occurred_at := 0,
    device_id := "web-kiosk", synced := 0 }

/-- A world with a single transaction and both executions idle. -/
def oneTxWorld (t : Tx) : SyncWorld :=
  { txs := [t], submissions := [], taskA := .idle, taskB := .idle }

/-- World fixture: one unsynced transaction, both executions idle. -/
def demoSyncWorld : SyncWorld := oneTxWorld demoTx

/-- C7 counterexample: with one unsynced transaction and a healthy
remote, interleaving the timer tick with a manual Sync Now submits the
very same batch twice — neither execution skips, because no in-flight
flag exists. -/
theorem sync_noInflightFlag_counterexample :
    (runSchedule demoSyncWorld
      [true, false, true, false, true, false, true, false]).submissions =
      [[0], [0]] := by decide

/-- C7 amended: `trySync` keeps no in-flight flag, so a timer tick and a
manual trigger that interleave both read the same unsynced batch and
both submit it (double submission); the duplicated local mark is
idempotent, so the batch still ends with `synced = 1`. -/
theorem sync_noInflightFlag_overlap :
    ∀ t : Tx, t.synced ≠ 1 →
      (runSchedule (oneTxWorld t)
        [true, false, true, false, true, false, true, false]).submissions =
        [[t.id], [t.id]] ∧
      (runSchedule (oneTxWorld t)
        [true, false, true, false, true, false, true, false]).txs =
        [{ t with synced := 1 }] := by
  intro t ht
  have hfil : unsyncedTxs [t] = [t] := by
    simp [unsyncedTxs, List.filter, ht]
  constructor
  · simp [runSchedule, syncWorldStep, syncTaskStep, oneTxWorld, hfil,
      bulkPutSynced, List.foldl, ht]
  · simp [runSchedule, syncWorldStep, syncTaskStep, oneTxWorld, hfil,
      bulkPutSynced, List.foldl, ht]

/-- C7 amended witness: the concrete double submission and final synced
state for the demo transaction. -/
theorem sync_noInflightFlag_overlap_witness :
    (runSchedule demoSyncWorld
      [true, false, true, false, true, false, true, false]).submissions =
      [[demoTx.id], [demoTx.id]] ∧
    (runSchedule demoSyncWorld
      [true, false, true, false, true, false, true, false]).txs =
      [{ demoTx with synced := 1 }] :=
  sync_noInflightFlag_overlap demoTx (by decide)
